import Mathlib

/-
  Verification development for the mpm-vibe-coding AST indexer
  (src/mcp-server-go/internal/services/ast_indexer_rust/src/main.rs).

  The Rust program is shallowly embedded below: SQLite tables become lists of
  row structures, SQL statements become list transformations, and the pure
  helper functions (search layers, scoring, change detection, env tunables)
  become Lean functions translated clause by clause from the source.
-/

namespace AstIndexer

/- ==========================================================================
   Generic string / list utilities used by the embedding
   ========================================================================== -/

/-- ASCII lowercase of one character. SQLite LIKE folds exactly the ASCII
letters A-Z; the Rust to_lowercase calls in the Levenshtein layer are modelled
with the same ASCII folding (non-ASCII case mappings are outside the model,
none of the claims involve them). -/
def asciiLowerChar (c : Char) : Char :=
  if 'A' ≤ c ∧ c ≤ 'Z' then Char.ofNat (c.toNat + 32) else c

/-- ASCII lowercase of a character list. -/
def lowerChars (l : List Char) : List Char := l.map asciiLowerChar

/-- Boolean test that p occurs as a contiguous infix of l. -/
def listInfixB (p : List Char) : List Char → Bool
  | [] => p.isEmpty
  | c :: rest => p.isPrefixOf (c :: rest) || listInfixB p rest

/-- Fuel-indexed Levenshtein recurrence (unit insert / delete / substitute
costs over chars). Structural recursion on the fuel keeps the definition
kernel-reducible; every recursive call shrinks the combined length, so a
fuel of combined length plus one never runs out and the zero-fuel arm is
unreachable from lev below. -/
def levFuel : Nat → List Char → List Char → Nat
  | 0, _, _ => 0
  | _ + 1, [], b => b.length
  | _ + 1, a :: as, [] => (a :: as).length
  | fuel + 1, a :: as, b :: bs =>
    if a = b then levFuel fuel as bs
    else 1 + min (levFuel fuel as bs)
          (min (levFuel fuel (a :: as) bs) (levFuel fuel as (b :: bs)))

/-- Levenshtein edit distance over character lists, as computed by the
strsim crate. -/
def lev (a b : List Char) : Nat := levFuel (a.length + b.length + 1) a b

/-- Total UTF-8 byte length of a character list, matching Rust String len. -/
def utf8Len (l : List Char) : Nat := (l.map Char.utf8Size).sum

/-- Byte-indexed prefix slice of a UTF-8 string, matching the Rust
expression query[..n]. Returns none exactly when n is not a character
boundary, which in Rust is a panic. -/
def takeBytes : List Char → Nat → Option (List Char)
  | _, 0 => some []
  | [], _ + 1 => none
  | c :: cs, n + 1 =>
    if c.utf8Size ≤ n + 1 then (takeBytes cs (n + 1 - c.utf8Size)).map (fun t => c :: t)
    else none

/- ==========================================================================
   Query engine: progressive fuzzy search (run_query helpers)
   ========================================================================== -/

/-- Symbol row as seen by the search layers (the SQL join of symbols and
files). Fields of the Rust Node struct not read by any search layer
(qualified_name, line range, signature, calls) are elided. -/
structure Node where
  id : String
  name : String
  qualified_name : String
  file_path : String
deriving Repr, DecidableEq

/-- Semantics of the SQLite pattern (name LIKE q-percent): ASCII
case-insensitive prefix test. Queries containing the LIKE metacharacters
percent and underscore are outside the model. -/
def likeStarts (q name : String) : Bool :=
  (lowerChars q.data).isPrefixOf (lowerChars name.data)

/-- Semantics of the SQLite pattern (name LIKE percent-q): ASCII
case-insensitive suffix test. -/
def likeEnds (q name : String) : Bool :=
  (lowerChars q.data).isSuffixOf (lowerChars name.data)

/-- Semantics of the SQLite pattern (name LIKE percent-q-percent): ASCII
case-insensitive substring test. -/
def likeContains (q name : String) : Bool :=
  listInfixB (lowerChars q.data) (lowerChars name.data)

/-- Layer 1 of progressive_search_multi: SQL WHERE name = q LIMIT 1.
The SQL equality on TEXT uses the BINARY collation, hence is case-sensitive,
unlike LIKE. -/
def exact_match (syms : List Node) (q : String) : Option Node :=
  (syms.filter (fun s => s.name == q)).head?

/-- Layer 2: SQL WHERE name LIKE q-percent OR name LIKE percent-q LIMIT n. -/
def prefix_suffix_match_multi (syms : List Node) (q : String) (limit : Nat) : List Node :=
  (syms.filter (fun s => likeStarts q s.name || likeEnds q s.name)).take limit

/-- Layer 3: SQL WHERE name LIKE percent-q-percent LIMIT n. -/
def substring_match_multi (syms : List Node) (q : String) (limit : Nat) : List Node :=
  (syms.filter (fun s => likeContains q s.name)).take limit

/-- Stable insertion of one (node, distance) pair into a list sorted by
ascending distance: the new element goes after all existing elements with
distance less than or equal to its own, mirroring Rust sort_by_key stability. -/
def insertByDist (x : Node × Nat) : List (Node × Nat) → List (Node × Nat)
  | [] => [x]
  | y :: ys => if y.2 ≤ x.2 then y :: insertByDist x ys else x :: y :: ys

/-- Stable sort by ascending distance (models matches.sort_by_key). -/
def sortByDist (l : List (Node × Nat)) : List (Node × Nat) :=
  l.foldl (fun acc x => insertByDist x acc) []

/-- Layer 4: scan every symbol name, keep those whose lowercased Levenshtein
distance to the lowercased query is at most maxDistance, sort by ascending
distance, truncate to limit. -/
def levenshtein_match_multi (syms : List Node) (q : String)
    (maxDistance limit : Nat) : List (Node × Nat) :=
  let ql := lowerChars q.data
  let hits :=
    (syms.map (fun s => (s, lev ql (lowerChars s.name.data)))).filter
      (fun p => p.2 ≤ maxDistance)
  (sortByDist hits).take limit

/-- Layer 5: when the query has byte length at least 4, the stem is the Rust
byte slice query[..4] and the layer is SQL WHERE name LIKE stem-percent
LIMIT n. The none result models the Rust panic that occurs when byte index 4
is not a character boundary of the query. -/
def stem_match_multi (syms : List Node) (q : String) (limit : Nat) :
    Option (List Node) :=
  if utf8Len q.data < 4 then some []
  else
    match takeBytes q.data 4 with
    | none => none
    | some stem =>
        some ((syms.filter (fun s => likeStarts (String.mk stem) s.name)).take limit)

/-- Candidate entry of the query result (node, match type tag, score). Scores
are exact in f32 because every value is a small multiple of one twentieth;
they are modelled in ℚ, built with mkRat so that they reduce in the kernel
(the lemma mkRat_score_eq below restates them with the division the source
writes). -/
structure Candidate where
  node : Node
  match_type : String
  score : ℚ
deriving Repr, DecidableEq

/-- Result of progressive_search_multi: optional best match with its match
type, plus the candidate list of the winning layer. -/
structure SearchOutcome where
  best : Option (Node × String)
  candidates : List Candidate
deriving Repr, DecidableEq

/-- Progressive fuzzy search: evaluate the five layers in order and stop at
the first one that yields a hit. Translated from progressive_search_multi;
the Rust best = candidates[0] is the head of the non-empty candidate list.
The outer none models a panic inside the stem layer. -/
def progressive_search_multi (syms : List Node) (q : String) : Option SearchOutcome :=
  match exact_match syms q with
  | some node => some { best := some (node, "exact"), candidates := [] }
  | none =>
    match prefix_suffix_match_multi syms q 5 with
    | c :: cs =>
        some { best := some (c, "prefix_suffix"),
               candidates := (c :: cs).map (fun n => ⟨n, "prefix_suffix", mkRat 9 10⟩) }
    | [] =>
      match substring_match_multi syms q 5 with
      | c :: cs =>
          some { best := some (c, "substring"),
                 candidates := (c :: cs).map (fun n => ⟨n, "substring", mkRat 4 5⟩) }
      | [] =>
        match levenshtein_match_multi syms q 3 5 with
        | m :: ms =>
            some { best := some (m.1, "levenshtein"),
                   candidates := (m :: ms).map
                     (fun p => ⟨p.1, "levenshtein_d" ++ toString p.2,
                                mkRat (4 - (p.2 : Int)) 4⟩) }
        | [] =>
          match stem_match_multi syms q 5 with
          | none => none
          | some [] => some { best := none, candidates := [] }
          | some (c :: cs) =>
              some { best := some (c, "stem"),
                     candidates := (c :: cs).map (fun n => ⟨n, "stem", mkRat 1 2⟩) }

/- ==========================================================================
   Persistence model: tables of run_indexer (files / symbols / calls)
   ========================================================================== -/

/-- Row of the files table (columns not read by any claim are elided). -/
structure FileRow where
  file_id : Nat
  file_path : String
  file_hash : String
  file_size : Nat
  file_mtime : Int
  index_level : String
deriving Repr, DecidableEq

/-- Row of the symbols table. -/
structure SymbolRow where
  symbol_id : Nat
  file_id : Nat
  name : String
  qualified_name : String
  canonical_id : String
deriving Repr, DecidableEq

/-- Row of the calls table. callee_id none models SQL NULL. -/
structure CallRow where
  caller_id : Nat
  callee_name : String
  callee_id : Option String
deriving Repr, DecidableEq

/-- Database state. The next-id counters model the AUTOINCREMENT keyword on
both primary keys: row ids are never reused, even after deletes. -/
structure Db where
  files : List FileRow
  symbols : List SymbolRow
  calls : List CallRow
  nextFileId : Nat
  nextSymbolId : Nat
deriving Repr, DecidableEq

/-- Pending symbol sent by a parser worker (subset of fields the consumer
writes into the symbols table). -/
structure PendingSymbol where
  temp_id : Nat
  name : String
  qualified_name : String
  symbol_type : String
deriving Repr, DecidableEq

/-- Pending call sent by a parser worker. -/
structure PendingCall where
  caller_temp_id : Nat
  callee_name : String
deriving Repr, DecidableEq

/-- ParseResult message of the producer / consumer channel. A skip marker has
language = skip and is ignored by the consumer. -/
structure ParseResult where
  file_path : String
  file_hash : String
  file_size : Nat
  file_mtime : Int
  language : String
  index_level : String
  symbols : List PendingSymbol
  calls : List PendingCall
deriving Repr, DecidableEq

/-- Canonical identifier, format prefix:file_path::name with prefix class
for classes and func otherwise. -/
def canonicalId (symbol_type file_path name : String) : String :=
  (if symbol_type == "class" then "class" else "func") ++ ":" ++ file_path ++ "::" ++ name

/-- Upsert of the files row (INSERT ... ON CONFLICT(file_path) DO UPDATE). -/
def upsertFile (db : Db) (res : ParseResult) : Db :=
  if db.files.any (fun f => f.file_path == res.file_path) then
    { db with files := db.files.map (fun f =>
        if f.file_path == res.file_path then
          { f with file_hash := res.file_hash, file_size := res.file_size,
                   file_mtime := res.file_mtime, index_level := res.index_level }
        else f) }
  else
    { db with
        files := db.files ++
          [{ file_id := db.nextFileId, file_path := res.file_path,
             file_hash := res.file_hash, file_size := res.file_size,
             file_mtime := res.file_mtime, index_level := res.index_level }],
        nextFileId := db.nextFileId + 1 }

/-- SELECT file_id FROM files WHERE file_path = ?. -/
def lookupFileId (db : Db) (path : String) : Option Nat :=
  (db.files.find? (fun f => f.file_path == path)).map (fun f => f.file_id)

/-- Insertion of the pending symbols of one file, returning the updated
state and the temp-id to row-id map the call inserts use. -/
def insertSymbols (db : Db) (fid : Nat) (fpath : String)
    (syms : List PendingSymbol) : Db × List (Nat × Nat) :=
  syms.foldl
    (fun acc ps =>
      let d := acc.1
      let sid := d.nextSymbolId
      ({ d with
           symbols := d.symbols ++
             [{ symbol_id := sid, file_id := fid, name := ps.name,
                qualified_name := ps.qualified_name,
                canonical_id := canonicalId ps.symbol_type fpath ps.name }],
           nextSymbolId := sid + 1 },
       acc.2 ++ [(ps.temp_id, sid)]))
    (db, [])

/-- Consumer handling of one ParseResult: skip markers are dropped; otherwise
upsert the file row, delete the existing symbols of the file, stop there for
meta level, else insert symbols and calls (callee_id NULL at this stage).

The DELETE FROM symbols does NOT remove the call rows of the deleted
symbols: the calls table declares caller_id with ON DELETE CASCADE, but the
program never executes PRAGMA foreign_keys = ON (only synchronous,
journal_mode and wal_autocheckpoint are set), and SQLite leaves foreign-key
enforcement, including cascades, disabled by default. -/
def persist_parse_result (db : Db) (res : ParseResult) : Db :=
  if res.language == "skip" then db
  else
    let db1 := upsertFile db res
    match lookupFileId db1 res.file_path with
    | none => db1
    | some fid =>
      let db2 := { db1 with symbols := db1.symbols.filter (fun s => s.file_id != fid) }
      if res.index_level == "meta" then db2
      else
        let ins := insertSymbols db2 fid res.file_path res.symbols
        { ins.1 with calls := ins.1.calls ++ res.calls.filterMap (fun c =>
            ((ins.2.find? (fun p => p.1 == c.caller_temp_id)).map
              (fun p => { caller_id := p.2, callee_name := c.callee_name,
                          callee_id := none }))) }

/-- Sort key of the linking UPDATE subquery ORDER BY: same file as the
caller first (0 before 1), then ascending symbol row id. -/
def linkKey (callerFid : Nat) (s : SymbolRow) : Nat × Nat :=
  (if s.file_id = callerFid then 0 else 1, s.symbol_id)

/-- Strict lexicographic order on sort keys. -/
def keyLt (a b : Nat × Nat) : Bool :=
  a.1 < b.1 || (a.1 == b.1 && a.2 < b.2)

/-- First row of the candidate list under the ORDER BY ... LIMIT 1 of the
linking subquery (an earlier element wins ties, though symbol ids are
unique in reachable states). -/
def selectMinBy (key : SymbolRow → Nat × Nat) : List SymbolRow → Option SymbolRow
  | [] => none
  | s :: rest =>
    match selectMinBy key rest with
    | none => some s
    | some t => if keyLt (key t) (key s) then some t else some s

/-- Value the linking UPDATE assigns to one call with NULL callee_id: the
correlated subquery joins the caller symbol row sc and every symbol s2 with
s2.name = callee_name, ordered same-file-first then by symbol id, LIMIT 1.
With no caller row or no name match the subquery yields NULL. -/
def link_target (db : Db) (c : CallRow) : Option String :=
  match db.symbols.find? (fun s => s.symbol_id == c.caller_id) with
  | none => none
  | some sc =>
    (selectMinBy (linkKey sc.file_id)
        (db.symbols.filter (fun s => s.name == c.callee_name))).map
      (fun s => s.canonical_id)

/-- Linking pass: UPDATE calls SET callee_id = (subquery) WHERE callee_id IS
NULL. Rows whose callee_id is already non-NULL are not modified. -/
def link_calls (db : Db) : Db :=
  { db with calls := db.calls.map (fun c =>
      if c.callee_id.isSome then c else { c with callee_id := link_target db c }) }

/-- Orphan cleanup: for every files row whose path no longer exists on disk,
DELETE FROM symbols WHERE file_id and DELETE FROM files WHERE file_id. The
calls table is again untouched (cascade not enforced, see
persist_parse_result). -/
def cleanup_deleted_files (db : Db) (existsOnDisk : String → Bool) : Db :=
  let gone := db.files.filter (fun f => !(existsOnDisk f.file_path))
  { db with
      files := db.files.filter (fun f => existsOnDisk f.file_path),
      symbols := db.symbols.filter
        (fun s => !(gone.any (fun f => f.file_id == s.file_id))) }

/-- One index run over the already-produced ParseResults: batched persist of
every result, then the linking pass, then orphan cleanup (this is the order
of run_indexer: link before cleanup, both before the final commit). -/
def run_index (db : Db) (results : List ParseResult)
    (existsOnDisk : String → Bool) : Db :=
  cleanup_deleted_files (link_calls (results.foldl persist_parse_result db)) existsOnDisk

/-- Invariant 4 of the spec: every calls row references an existing symbols
row as its caller. -/
def callers_valid (db : Db) : Prop :=
  ∀ c ∈ db.calls, ∃ s ∈ db.symbols, s.symbol_id = c.caller_id

/-- Node list the query engine sees for a database state (the SQL join of
symbols and files). -/
def dbNodes (db : Db) : List Node :=
  db.symbols.map (fun s =>
    { id := s.canonical_id, name := s.name, qualified_name := s.qualified_name,
      file_path := ((db.files.find? (fun f => f.file_id == s.file_id)).map
        (fun f => f.file_path)).getD "" })

/- ==========================================================================
   Concrete scenario data (spec scenario S1 and its variants)
   ========================================================================== -/

/-- Empty database fresh from init_db (AUTOINCREMENT counters start at 1). -/
def emptyDb : Db := { files := [], symbols := [], calls := [], nextFileId := 1, nextSymbolId := 1 }

/-- ParseResult of src/a.py in scenario S1: def foo(): bar() gives symbol foo
and one call to bar (this is what the Python extraction yields per spec
section 8). -/
def s1_a : ParseResult :=
  { file_path := "src/a.py", file_hash := "ha1", file_size := 20, file_mtime := 100,
    language := "py", index_level := "symbol",
    symbols := [{ temp_id := 1, name := "foo", qualified_name := "foo",
                  symbol_type := "function" }],
    calls := [{ caller_temp_id := 1, callee_name := "bar" }] }

/-- ParseResult of src/b.py in scenario S1: def bar(): pass. -/
def s1_b : ParseResult :=
  { file_path := "src/b.py", file_hash := "hb1", file_size := 18, file_mtime := 100,
    language := "py", index_level := "symbol",
    symbols := [{ temp_id := 1, name := "bar", qualified_name := "bar",
                  symbol_type := "function" }],
    calls := [] }

/-- Disk predicate of scenario S1: both files exist. -/
def s1Disk : String → Bool := fun p => p == "src/a.py" || p == "src/b.py"

/-- Database after the first index run of scenario S1. -/
def s1_run1 : Db := run_index emptyDb [s1_a, s1_b] s1Disk

/-- Pre-link state of S1 (all results persisted, linking not yet run),
used to exercise the linking theorem. -/
def s1_pre : Db := [s1_a, s1_b].foldl persist_parse_result emptyDb

/-- Skip marker for src/a.py in the second run of scenario S6: size and
mtime unchanged, so the metadata fast path emits a skip. -/
def s1_a_skip : ParseResult :=
  { s1_a with language := "skip", symbols := [], calls := [] }

/-- Database after the S6 re-run: src/b.py was deleted from disk, src/a.py
is skipped unchanged. -/
def s6_run2 : Db := run_index s1_run1 [s1_a_skip] (fun p => p == "src/a.py")

/-- ParseResult of an edited src/a.py (content changed, same symbols): the
re-parse path of the consumer runs DELETE FROM symbols for the file and
re-inserts fresh rows. -/
def c1_a2 : ParseResult :=
  { s1_a with file_hash := "ha2", file_mtime := 101 }

/-- Database after editing src/a.py and re-running index on the S1 state. -/
def c1_run2 : Db := run_index s1_run1 [c1_a2] s1Disk

/- ==========================================================================
   Impact analyzer: graph construction and reachability (run_analyze)
   ========================================================================== -/

/-- Edge list of the in-memory graph of run_analyze: every call row is
joined with its caller symbol row (calls without a caller row are dropped by
the SQL JOIN); a resolved callee_id gives one edge, an unresolved call fans
out to every canonical id sharing the callee short name, in symbol scan
order. -/
def callEdges (db : Db) : List (String × String) :=
  db.calls.flatMap (fun c =>
    match db.symbols.find? (fun s => s.symbol_id == c.caller_id) with
    | none => []
    | some sc =>
      match c.callee_id with
      | some cid => [(sc.canonical_id, cid)]
      | none =>
          (db.symbols.filter (fun s => s.name == c.callee_name)).map
            (fun s => (sc.canonical_id, s.canonical_id)))

/-- Forward adjacency (caller to callees), per-key edge order follows the
call scan order, duplicates included. -/
def adjacency (db : Db) (v : String) : List String :=
  (callEdges db).filterMap (fun e => if e.1 == v then some e.2 else none)

/-- Reverse adjacency (callee to callers). -/
def reverse_adjacency (db : Db) (v : String) : List String :=
  (callEdges db).filterMap (fun e => if e.2 == v then some e.1 else none)

/-- Direction selection of run_analyze: forward uses the forward adjacency,
every other direction string (backward is the default) the reverse one. -/
def selectGraph (direction : String) (fwd rev : String → List String) :
    String → List String :=
  if direction == "forward" then fwd else rev

/-- Indirect-reachability loop of run_analyze, translated statement by
statement. The queue is a Rust Vec and the loop pops with Vec::pop, which
removes the LAST element: the walk is depth-bounded LIFO (depth-first), not
breadth-first, although the source comment labels it BFS. A popped entry at
depth 3 or more is discarded without expansion; expanding a node appends
each unvisited neighbor to the visited list, the indirect list and the
queue, in adjacency order. The fuel argument merely bounds the recursion;
none is returned only when fuel runs out before the queue empties. -/
def analyzeLoop (g : String → List String) :
    Nat → List (String × Nat) → List String → List String →
      Option (List String × List String)
  | 0, queue, visited, indirect =>
      if queue.isEmpty then some (visited, indirect) else none
  | fuel + 1, queue, visited, indirect =>
    match queue.getLast? with
    | none => some (visited, indirect)
    | some (curr, depth) =>
      let rest := queue.dropLast
      if depth ≥ 3 then analyzeLoop g fuel rest visited indirect
      else
        let step := (g curr).foldl
          (fun (acc : List (String × Nat) × List String × List String) cid =>
            if acc.2.1.contains cid then acc
            else (acc.1 ++ [(cid, depth + 1)], acc.2.1 ++ [cid], acc.2.2 ++ [cid]))
          (rest, visited, indirect)
        analyzeLoop g fuel step.1 step.2.1 step.2.2

/-- Direct and indirect sets computed by run_analyze on the selected graph:
direct is the adjacency list of the target (pushed one entry per occurrence);
the queue starts with the direct nodes at depth 1 and the visited list is
pre-seeded with the target and the direct nodes. -/
def run_analyze_reach (g : String → List String) (target : String) (fuel : Nat) :
    Option (List String × List String) :=
  let direct := g target
  (analyzeLoop g fuel (direct.map (fun n => (n, 1))) (target :: direct) []).map
    (fun p => (direct, p.2))

/-- Claim-side notion for C4: the set of nodes reachable from start within
at most k steps (breadth-first distance at most k). -/
def reachWithin (g : String → List String) (start : String) : Nat → List String
  | 0 => [start]
  | k + 1 =>
      let prev := reachWithin g start k
      (prev ++ prev.flatMap g).dedup

/- ==========================================================================
   Impact analyzer: random-walk complexity score and risk (run_analyze)
   ========================================================================== -/

/-- Randomness oracle of the damped walk: damp w i is true when the step i
of walk w continues (the f64 sample was at most 0.85), choose w i picks the
neighbor index. -/
structure WalkOracle where
  damp : Nat → Nat → Bool
  choose : Nat → Nat → Nat

/-- Visits of one walk: at most the given fuel nodes, starting at curr;
after each visit the walk stops on a damp failure, on a node without
neighbors, or when the step budget is exhausted. -/
def walkFrom (adj : String → List String) (o : WalkOracle) (w : Nat) :
    Nat → Nat → String → List String
  | 0, _, _ => []
  | remaining + 1, step, curr =>
    curr ::
      (if !(o.damp w step) then []
       else
         let ns := adj curr
         match ns.get? (o.choose w step % ns.length) with
         | none => []
         | some nxt => walkFrom adj o w remaining (step + 1) nxt)

/-- Concatenated visits of numWalks independent walks of length at most
walkLength, each starting at the target. -/
def allWalkVisits (adj : String → List String) (o : WalkOracle) (target : String)
    (numWalks walkLength : Nat) : List String :=
  (List.range numWalks).flatMap (fun w => walkFrom adj o w walkLength 0 target)

/-- Output fields of run_analyze relevant to C7. -/
structure AnalyzeScore where
  complexity_score : ℚ
  complexity_level : String
  risk_level : String
deriving Repr, DecidableEq

/-- Level binning of run_analyze (thresholds 20 / 50 / 80). -/
def complexity_level_of (x : ℚ) : String :=
  if x < 20 then "Simple"
  else if x < 50 then "Medium"
  else if x < 80 then "High"
  else "Extreme"

/-- Risk binning of run_analyze on direct plus indirect count (the zero
branch of the source is subsumed by the first threshold). -/
def risk_level_of (total : Nat) : String :=
  if total = 0 then "low"
  else if total ≤ 3 then "low"
  else if total ≤ 10 then "medium"
  else "high"

/-- Complexity and risk computation of run_analyze: coverage is the number
of distinct ids visited by 1000 damped walks of length at most 10 on the
forward graph, the raw score is 0.5 coverage + 2 out-degree + 1 in-degree,
clamped to 100; levels bin at 20 / 50 / 80; risk bins the direct plus
indirect count at 3 / 10. Every score is a multiple of one half far below
2 to the 52, so the f64 arithmetic of the source is exact and its order
agrees with ℚ. -/
def analyze_score (adj revAdj : String → List String) (o : WalkOracle)
    (target : String) (directCount indirectCount : Nat) : AnalyzeScore :=
  let coverage := ((allWalkVisits adj o target 1000 10).dedup).length
  let out_degree := (adj target).length
  let in_degree := (revAdj target).length
  let complexity_score : ℚ :=
    (coverage : ℚ) * (1/2) + (out_degree : ℚ) * 2 + (in_degree : ℚ) * 1
  let normalized := if complexity_score > 100 then (100 : ℚ) else complexity_score
  { complexity_score := normalized,
    complexity_level := complexity_level_of normalized,
    risk_level := risk_level_of (directCount + indirectCount) }

/- ==========================================================================
   Change detector (producer body of run_indexer)
   ========================================================================== -/

/-- Stored per-file metadata pre-loaded from the files table. -/
structure DbFileMeta where
  hash : String
  size : Nat
  mtime : Int
  level : String
deriving Repr, DecidableEq

/-- Message kind a producer worker emits for one file. -/
inductive FileOutcome
  | skipMarker
  | metaMarker
  | parsed
deriving Repr, DecidableEq

/-- Per-file decision of the producer, in source order: metadata fast path
(stored level symbol, size and mtime equal: skip without reading), then the
bootstrap diversion (strategy active, not force_full, budget exhausted: meta
marker without reading), then read and hash the content and skip when the
stored hash equals the content hash, else parse. hashOfContent stands for
the SHA-256 hex digest of the current bytes; the Bool of the result records
whether the file content was read. -/
def process_file (old : Option DbFileMeta) (size : Nat) (mtime : Int)
    (hashOfContent : String) (bootstrapDivert : Bool) : FileOutcome × Bool :=
  match old with
  | some o =>
    if o.level == "symbol" && o.size == size && o.mtime == mtime then
      (FileOutcome.skipMarker, false)
    else if bootstrapDivert then (FileOutcome.metaMarker, false)
    else if o.hash == hashOfContent then (FileOutcome.skipMarker, true)
    else (FileOutcome.parsed, true)
  | none =>
    if bootstrapDivert then (FileOutcome.metaMarker, false)
    else (FileOutcome.parsed, true)

/- ==========================================================================
   Environment tunables (run_indexer startup)
   ========================================================================== -/

/-- Process environment, a total map from variable name to optional value. -/
def EnvMap := String → Option String

/-- Digit accumulator for parseUsize. -/
def parseDigits : List Char → Nat → Option Nat
  | [], acc => some acc
  | c :: cs, acc =>
      if '0' ≤ c ∧ c ≤ '9' then parseDigits cs (acc * 10 + (c.toNat - '0'.toNat))
      else none

/-- Rust str parse to usize: a non-empty string of decimal digits (the
optional leading plus sign and usize overflow are outside the model; no
claim involves them). -/
def parseUsize (s : String) : Option Nat :=
  match s.data with
  | [] => none
  | l => parseDigits l 0

/-- Huge-repo threshold: the source reads MPM_AST_HUGE_FILE_THRESHOLD and
falls back to 50000 when the variable is absent or unparseable. -/
def huge_threshold (e : EnvMap) : Nat :=
  ((e "MPM_AST_HUGE_FILE_THRESHOLD").bind parseUsize).getD 50000

/-- Bootstrap parse budget: the source reads MPM_AST_BOOTSTRAP_MAX_PARSE and
falls back to 5000. -/
def bootstrap_parse_budget (e : EnvMap) : Nat :=
  ((e "MPM_AST_BOOTSTRAP_MAX_PARSE").bind parseUsize).getD 5000

/-- Claim-side reading for C9, following the words of the claim (variables
HUGE_FILE_THRESHOLD and BOOTSTRAP_MAX_PARSE); used only to refute the claim
as stated against the source definition above. -/
def huge_threshold_claim (e : EnvMap) : Nat :=
  ((e "HUGE_FILE_THRESHOLD").bind parseUsize).getD 50000

/-- Claim-side reading of the bootstrap budget for C9. -/
def bootstrap_parse_budget_claim (e : EnvMap) : Nat :=
  ((e "BOOTSTRAP_MAX_PARSE").bind parseUsize).getD 5000

/-- Environment that sets exactly the variable names the claim C9 quotes. -/
def c9Env : EnvMap := fun k =>
  if k == "HUGE_FILE_THRESHOLD" then some "7"
  else if k == "BOOTSTRAP_MAX_PARSE" then some "9"
  else none

/- ==========================================================================
   Mode outputs (run_query / run_analyze error paths)
   ========================================================================== -/

/-- Caller enumeration of run_query once a primary symbol is resolved: call
rows whose callee_id equals the primary canonical id, or whose callee_id is
NULL and callee_name equals the primary short name, joined to the caller
symbol row. -/
def relatedCallers (db : Db) (sym : Node) : List Node :=
  db.calls.filterMap (fun c =>
    if c.callee_id == some sym.id ||
       (c.callee_id == none && c.callee_name == sym.name) then
      (db.symbols.find? (fun s => s.symbol_id == c.caller_id)).map (fun s =>
        { id := s.canonical_id, name := s.name, qualified_name := s.qualified_name,
          file_path := ((db.files.find? (fun f => f.file_id == s.file_id)).map
            (fun f => f.file_path)).getD "" })
    else none)

/-- JSON shape run_query writes in query-string mode. -/
structure QueryOutput where
  status : String
  found_symbol : Option Node
  match_type : Option String
  candidates : List Candidate
  related_nodes : List Node
deriving Repr, DecidableEq

/-- Output of run_query for a query string: the progressive search result is
wrapped with status success whether or not a symbol was found (the not-found
case only leaves found_symbol and match_type empty). The outer none models a
panic inside the stem layer. -/
def run_query_output (db : Db) (q : String) : Option QueryOutput :=
  (progressive_search_multi (dbNodes db) q).map (fun r =>
    { status := "success",
      found_symbol := r.best.map (fun p => p.1),
      match_type := r.best.map (fun p => p.2),
      candidates := r.candidates,
      related_nodes := (r.best.map (fun p => relatedCallers db p.1)).getD [] })

/-- Target resolution of run_analyze: exact name equality first, then the
LIKE pattern percent-q-percent on name or qualified_name, first row. -/
def analyze_find_target (db : Db) (q : String) : Option SymbolRow :=
  match db.symbols.find? (fun s => s.name == q) with
  | some s => some s
  | none =>
      db.symbols.find? (fun s =>
        likeContains q s.name || likeContains q s.qualified_name)

/-- Status and message fields of the JSON run_analyze writes: a resolved
target leads to the success report; a missing target writes status error
with the diagnostic message Symbol not found and returns without a fatal
error. -/
def run_analyze_status (db : Db) (q : String) : String × Option String :=
  match analyze_find_target db q with
  | some _ => ("success", none)
  | none => ("error", some "Symbol not found")

/- ==========================================================================
   Concrete graphs for the reachability claim
   ========================================================================== -/

/-- Database whose forward call graph is T to m and n1, n1 to n2, n2 to B,
m to B, B to X: node B has breadth-first distance 2 from T (via m) and X has
distance 3, yet the LIFO walk of run_analyze first reaches B along the
length-3 path through n1 and n2. Canonical ids are the plain node names. -/
def c4db : Db :=
  { files := [{ file_id := 1, file_path := "g.py", file_hash := "h", file_size := 1,
                file_mtime := 1, index_level := "symbol" }],
    symbols :=
      [{ symbol_id := 1, file_id := 1, name := "T", qualified_name := "T", canonical_id := "T" },
       { symbol_id := 2, file_id := 1, name := "m", qualified_name := "m", canonical_id := "m" },
       { symbol_id := 3, file_id := 1, name := "n1", qualified_name := "n1", canonical_id := "n1" },
       { symbol_id := 4, file_id := 1, name := "n2", qualified_name := "n2", canonical_id := "n2" },
       { symbol_id := 5, file_id := 1, name := "B", qualified_name := "B", canonical_id := "B" },
       { symbol_id := 6, file_id := 1, name := "X", qualified_name := "X", canonical_id := "X" }],
    calls :=
      [{ caller_id := 1, callee_name := "m", callee_id := some "m" },
       { caller_id := 1, callee_name := "n1", callee_id := some "n1" },
       { caller_id := 3, callee_name := "n2", callee_id := some "n2" },
       { caller_id := 4, callee_name := "B", callee_id := some "B" },
       { caller_id := 2, callee_name := "B", callee_id := some "B" },
       { caller_id := 5, callee_name := "X", callee_id := some "X" }],
    nextFileId := 2, nextSymbolId := 7 }

/-- Circular two-node call graph A to B to A from the claim. -/
def circDb : Db :=
  { files := [{ file_id := 1, file_path := "c.py", file_hash := "h", file_size := 1,
                file_mtime := 1, index_level := "symbol" }],
    symbols :=
      [{ symbol_id := 1, file_id := 1, name := "A", qualified_name := "A", canonical_id := "A" },
       { symbol_id := 2, file_id := 1, name := "B", qualified_name := "B", canonical_id := "B" }],
    calls :=
      [{ caller_id := 1, callee_name := "B", callee_id := some "B" },
       { caller_id := 2, callee_name := "A", callee_id := some "A" }],
    nextFileId := 2, nextSymbolId := 3 }

/-- Symbols row of foo after the first S1 persist. -/
def fooRow : SymbolRow :=
  { symbol_id := 1, file_id := 1, name := "foo", qualified_name := "foo",
    canonical_id := "func:src/a.py::foo" }

/-- Symbols row of bar after the first S1 persist. -/
def barRow : SymbolRow :=
  { symbol_id := 2, file_id := 2, name := "bar", qualified_name := "bar",
    canonical_id := "func:src/b.py::bar" }

/-- Calls row of the unresolved call foo to bar before linking. -/
def s1Call : CallRow :=
  { caller_id := 1, callee_name := "bar", callee_id := none }

/-- Node of scenario S3 (symbol bar queried with the misspelling baz). -/
def s3bar : Node :=
  { id := "func:src/b.py::bar", name := "bar", qualified_name := "bar",
    file_path := "src/b.py" }

/-- Node of the surviving symbol foo, as the query engine sees it. -/
def fooNode : Node :=
  { id := "func:src/a.py::foo", name := "foo", qualified_name := "foo",
    file_path := "src/a.py" }

/-- Node with a capitalized name, for exercising the LIKE case folding. -/
def capFoo : Node :=
  { id := "func:f.py::Foo", name := "Foo", qualified_name := "Foo",
    file_path := "f.py" }

/-- Environment that sets only the MPM_AST prefixed threshold variable. -/
def c9Env2 : EnvMap := fun k =>
  if k == "MPM_AST_HUGE_FILE_THRESHOLD" then some "123" else none

/- ==========================================================================
   Helper lemmas
   ========================================================================== -/

theorem keyLt_iff (a b : Nat × Nat) :
    keyLt a b = true ↔ a.1 < b.1 ∨ (a.1 = b.1 ∧ a.2 < b.2) := by
  simp [keyLt]

theorem keyLt_eq_false_iff (a b : Nat × Nat) :
    keyLt a b = false ↔ ¬(a.1 < b.1 ∨ (a.1 = b.1 ∧ a.2 < b.2)) := by
  rw [← keyLt_iff]
  cases keyLt a b <;> simp

theorem keyLt_irrefl (a : Nat × Nat) : keyLt a a = false := by
  rw [keyLt_eq_false_iff]; omega

theorem keyLt_asymm {a b : Nat × Nat} (h : keyLt a b = true) : keyLt b a = false := by
  rw [keyLt_iff] at h; rw [keyLt_eq_false_iff]; omega

theorem keyLt_false_trans {a b c : Nat × Nat} (h1 : keyLt a b = false)
    (h2 : keyLt b c = false) : keyLt a c = false := by
  rw [keyLt_eq_false_iff] at h1 h2 ⊢; omega

theorem selectMinBy_eq_none_iff (key : SymbolRow → Nat × Nat) (l : List SymbolRow) :
    selectMinBy key l = none ↔ l = [] := by
  cases l with
  | nil => simp [selectMinBy]
  | cons s rest =>
    simp only [selectMinBy]
    cases selectMinBy key rest with
    | none => simp
    | some t => cases h : keyLt (key t) (key s) <;> simp [h]

theorem selectMinBy_mem (key : SymbolRow → Nat × Nat) :
    ∀ (l : List SymbolRow) (r : SymbolRow), selectMinBy key l = some r → r ∈ l := by
  intro l
  induction l with
  | nil => intro r h; simp [selectMinBy] at h
  | cons s rest ih =>
    intro r h
    simp only [selectMinBy] at h
    cases hrest : selectMinBy key rest with
    | none =>
      rw [hrest] at h
      simp only [Option.some.injEq] at h
      subst h
      exact List.mem_cons_self s rest
    | some t =>
      rw [hrest] at h
      cases hk : keyLt (key t) (key s) with
      | false =>
        simp only [hk, Bool.false_eq_true, if_false, Option.some.injEq] at h
        subst h
        exact List.mem_cons_self s rest
      | true =>
        simp only [hk, if_true, Option.some.injEq] at h
        subst h
        exact List.mem_cons_of_mem s (ih t hrest)

theorem selectMinBy_not_lt (key : SymbolRow → Nat × Nat) :
    ∀ (l : List SymbolRow) (r : SymbolRow), selectMinBy key l = some r →
      ∀ x ∈ l, keyLt (key x) (key r) = false := by
  intro l
  induction l with
  | nil => intro r h; simp [selectMinBy] at h
  | cons s rest ih =>
    intro r h x hx
    simp only [selectMinBy] at h
    cases hrest : selectMinBy key rest with
    | none =>
      rw [hrest] at h
      simp only [Option.some.injEq] at h
      subst h
      have hempty : rest = [] := (selectMinBy_eq_none_iff key rest).mp hrest
      subst hempty
      rcases List.mem_cons.mp hx with hxs | hxr
      · subst hxs; exact keyLt_irrefl _
      · simp at hxr
    | some t =>
      rw [hrest] at h
      cases hk : keyLt (key t) (key s) with
      | false =>
        simp only [hk, Bool.false_eq_true, if_false, Option.some.injEq] at h
        subst h
        rcases List.mem_cons.mp hx with hxs | hxr
        · subst hxs; exact keyLt_irrefl _
        · exact keyLt_false_trans (ih t hrest x hxr) hk
      | true =>
        simp only [hk, if_true, Option.some.injEq] at h
        subst h
        rcases List.mem_cons.mp hx with hxs | hxr
        · subst hxs; exact keyLt_asymm hk
        · exact ih t hrest x hxr

theorem mem_insertByDist (x y : Node × Nat) :
    ∀ (l : List (Node × Nat)), y ∈ insertByDist x l ↔ y = x ∨ y ∈ l := by
  intro l
  induction l with
  | nil => simp [insertByDist]
  | cons z zs ih =>
    simp only [insertByDist]
    split
    · rw [List.mem_cons, ih, List.mem_cons]
      tauto
    · rw [List.mem_cons]

theorem pairwise_insertByDist (x : Node × Nat) :
    ∀ (l : List (Node × Nat)), List.Pairwise (fun a b => a.2 ≤ b.2) l →
      List.Pairwise (fun a b => a.2 ≤ b.2) (insertByDist x l) := by
  intro l
  induction l with
  | nil => intro _; simp [insertByDist]
  | cons z zs ih =>
    intro h
    rcases List.pairwise_cons.mp h with ⟨hz, hzs⟩
    simp only [insertByDist]
    split
    · rename_i hle
      refine List.pairwise_cons.mpr ⟨?_, ih hzs⟩
      intro y hy
      rcases (mem_insertByDist x y zs).mp hy with rfl | hyzs
      · exact hle
      · exact hz y hyzs
    · rename_i hgt
      refine List.pairwise_cons.mpr ⟨?_, h⟩
      intro y hy
      rcases List.mem_cons.mp hy with rfl | hyzs
      · omega
      · exact le_trans (by omega) (hz y hyzs)

theorem pairwise_sortByDist_aux :
    ∀ (l acc : List (Node × Nat)), List.Pairwise (fun a b => a.2 ≤ b.2) acc →
      List.Pairwise (fun a b => a.2 ≤ b.2)
        (l.foldl (fun acc x => insertByDist x acc) acc) := by
  intro l
  induction l with
  | nil => intro acc h; simpa using h
  | cons x xs ih =>
    intro acc h
    simp only [List.foldl_cons]
    exact ih _ (pairwise_insertByDist x acc h)

theorem pairwise_sortByDist (l : List (Node × Nat)) :
    List.Pairwise (fun a b => a.2 ≤ b.2) (sortByDist l) :=
  pairwise_sortByDist_aux l [] (by simp)

theorem mem_sortByDist_aux :
    ∀ (l acc : List (Node × Nat)) (y : Node × Nat),
      y ∈ l.foldl (fun acc x => insertByDist x acc) acc ↔ y ∈ acc ∨ y ∈ l := by
  intro l
  induction l with
  | nil => intro acc y; simp
  | cons x xs ih =>
    intro acc y
    simp only [List.foldl_cons]
    rw [ih, mem_insertByDist, List.mem_cons]
    tauto

theorem mem_sortByDist (l : List (Node × Nat)) (y : Node × Nat) :
    y ∈ sortByDist l ↔ y ∈ l := by
  simpa [sortByDist] using mem_sortByDist_aux l [] y

theorem walkFrom_length_le (adj : String → List String) (o : WalkOracle) (w : Nat) :
    ∀ (fuel step : Nat) (curr : String),
      (walkFrom adj o w fuel step curr).length ≤ fuel := by
  intro fuel
  induction fuel with
  | zero => intro step curr; simp [walkFrom]
  | succ n ih =>
    intro step curr
    simp only [walkFrom, List.length_cons]
    have hti : ∀ (t : List String), t.length ≤ n → t.length + 1 ≤ n + 1 :=
      fun t ht => by omega
    apply hti
    split
    · simp
    · split
      · simp
      · exact ih _ _

theorem mkRat_score_eq (d : Nat) : mkRat (4 - (d : Int)) 4 = 1 - (d : ℚ)/4 := by
  rw [Rat.mkRat_eq_div]
  push_cast
  ring

theorem keyLt_linkKey_false {fid : Nat} {t r : SymbolRow}
    (h : keyLt (linkKey fid t) (linkKey fid r) = false) :
    (t.file_id = fid → r.file_id = fid) ∧
    (r.symbol_id ≤ t.symbol_id ∨ (t.file_id ≠ fid ∧ r.file_id = fid)) := by
  rw [keyLt_eq_false_iff] at h
  unfold linkKey at h
  by_cases h1 : t.file_id = fid <;> by_cases h2 : r.file_id = fid <;>
    simp [h1, h2] at h ⊢ <;> omega

theorem clamp_eq_min (x : ℚ) : (if x > 100 then (100 : ℚ) else x) = min x 100 := by
  split
  · rename_i h
    rw [min_eq_right (le_of_lt h)]
  · rename_i h
    rw [min_eq_left (not_lt.mp h)]

theorem level_bins (x : ℚ) :
    (complexity_level_of x = "Simple" ↔ x < 20) ∧
    (complexity_level_of x = "Medium" ↔ 20 ≤ x ∧ x < 50) ∧
    (complexity_level_of x = "High" ↔ 50 ≤ x ∧ x < 80) ∧
    (complexity_level_of x = "Extreme" ↔ 80 ≤ x) := by
  unfold complexity_level_of
  by_cases h1 : x < 20
  · rw [if_pos h1]
    refine ⟨by simp [h1], ?_, ?_, ?_⟩
    · constructor
      · intro hx; exact absurd hx (by decide)
      · rintro ⟨hge, _⟩; linarith
    · constructor
      · intro hx; exact absurd hx (by decide)
      · rintro ⟨hge, _⟩; linarith
    · constructor
      · intro hx; exact absurd hx (by decide)
      · intro hge; linarith
  · rw [if_neg h1]
    by_cases h2 : x < 50
    · rw [if_pos h2]
      refine ⟨?_, by simp [h2, not_lt.mp h1], ?_, ?_⟩
      · constructor
        · intro hx; exact absurd hx (by decide)
        · intro hlt; exact absurd hlt h1
      · constructor
        · intro hx; exact absurd hx (by decide)
        · rintro ⟨hge, _⟩; linarith
      · constructor
        · intro hx; exact absurd hx (by decide)
        · intro hge; linarith
    · rw [if_neg h2]
      by_cases h3 : x < 80
      · rw [if_pos h3]
        refine ⟨?_, ?_, by simp [h3, not_lt.mp h2], ?_⟩
        · constructor
          · intro hx; exact absurd hx (by decide)
          · intro hlt; exact absurd hlt h1
        · constructor
          · intro hx; exact absurd hx (by decide)
          · rintro ⟨_, hlt⟩; exact absurd hlt h2
        · constructor
          · intro hx; exact absurd hx (by decide)
          · intro hge; linarith
      · rw [if_neg h3]
        refine ⟨?_, ?_, ?_, by simp [not_lt.mp h3]⟩
        · constructor
          · intro hx; exact absurd hx (by decide)
          · intro hlt; exact absurd hlt h1
        · constructor
          · intro hx; exact absurd hx (by decide)
          · rintro ⟨_, hlt⟩; exact absurd hlt h2
        · constructor
          · intro hx; exact absurd hx (by decide)
          · rintro ⟨_, hlt⟩; exact absurd hlt h3

theorem risk_bins (total : Nat) :
    (total ≤ 3 → risk_level_of total = "low") ∧
    (3 < total → total ≤ 10 → risk_level_of total = "medium") ∧
    (10 < total → risk_level_of total = "high") := by
  unfold risk_level_of
  refine ⟨?_, ?_, ?_⟩
  · intro h
    by_cases hz : total = 0
    · rw [if_pos hz]
    · rw [if_neg hz, if_pos h]
  · intro h3 h10
    rw [if_neg (by omega), if_neg (by omega), if_pos h10]
  · intro h10
    rw [if_neg (by omega), if_neg (by omega), if_neg (by omega)]

theorem flatMap_length_le {α β : Type} (f : α → List β) (k : Nat)
    (hf : ∀ a, (f a).length ≤ k) :
    ∀ (l : List α), (l.flatMap f).length ≤ l.length * k := by
  intro l
  induction l with
  | nil => simp
  | cons x xs ih =>
    simp only [List.flatMap_cons, List.length_append, List.length_cons]
    calc (f x).length + (xs.flatMap f).length ≤ k + xs.length * k :=
          Nat.add_le_add (hf x) ih
      _ = (xs.length + 1) * k := by ring

/- ==========================================================================
   Claim theorems
   ========================================================================== -/

/-- C1: the invariant that every calls row references an existing symbols
row as its caller is violated by the code. The schema declares caller_id
with ON DELETE CASCADE, but the program never executes PRAGMA foreign_keys
= ON, so SQLite does not enforce the cascade: the per-file DELETE FROM
symbols during re-parse (and likewise orphan cleanup) leaves the call rows
of the deleted symbols behind. Editing src/a.py of scenario S1 and
re-indexing leaves the pre-edit call row with caller id 1 although no
symbols row with id 1 remains. -/
theorem C1_caller_invariant_violated :
    (¬ callers_valid c1_run2) ∧
    ∃ c ∈ c1_run2.calls, c.caller_id = 1 ∧
      ∀ s ∈ c1_run2.symbols, s.symbol_id ≠ 1 := by
  constructor
  · unfold callers_valid
    decide
  · decide

/-- C2: the linking pass does not modify calls whose callee_id is already
set and, for every call with NULL callee_id whose caller row exists, writes
the canonical id of a symbol whose short name equals the callee name,
preferring a symbol in the caller file and otherwise taking the smallest
symbol row id, and leaves NULL when no name matches; on scenario S1 the
single call edge ends with callee_id func:src/b.py::bar. -/
theorem C2_linking_pass (db : Db) (c : CallRow) (sc : SymbolRow)
    (hsc : db.symbols.find? (fun s => s.symbol_id == c.caller_id) = some sc)
    (hnull : c.callee_id = none) :
    ((∀ s ∈ db.symbols, s.name ≠ c.callee_name) → link_target db c = none) ∧
    (∀ m ∈ db.symbols, m.name = c.callee_name →
      ∃ r ∈ db.symbols, r.name = c.callee_name ∧
        link_target db c = some r.canonical_id ∧
        ((∃ t ∈ db.symbols, t.name = c.callee_name ∧ t.file_id = sc.file_id) →
          r.file_id = sc.file_id) ∧
        ((∀ t ∈ db.symbols, t.name = c.callee_name → t.file_id ≠ sc.file_id) →
          ∀ t ∈ db.symbols, t.name = c.callee_name → r.symbol_id ≤ t.symbol_id)) ∧
    (∀ d ∈ db.calls, d.callee_id ≠ none → d ∈ (link_calls db).calls) ∧
    (c ∈ db.calls → { c with callee_id := link_target db c } ∈ (link_calls db).calls) ∧
    s1_run1.calls.map (fun k => k.callee_id) = [some "func:src/b.py::bar"] := by
  refine ⟨?_, ?_, ?_, ?_, by decide⟩
  · intro hnone
    simp only [link_target, hsc]
    have hF : db.symbols.filter (fun s => s.name == c.callee_name) = [] := by
      rw [List.filter_eq_nil_iff]
      intro a ha
      simpa using hnone a ha
    rw [hF]
    simp [selectMinBy]
  · intro m hm hmn
    have hmF : m ∈ db.symbols.filter (fun s => s.name == c.callee_name) := by
      rw [List.mem_filter]
      exact ⟨hm, by simpa using hmn⟩
    cases hsel : selectMinBy (linkKey sc.file_id)
        (db.symbols.filter (fun s => s.name == c.callee_name)) with
    | none =>
      rw [selectMinBy_eq_none_iff] at hsel
      rw [hsel] at hmF
      simp at hmF
    | some r =>
      have hrF := selectMinBy_mem _ _ _ hsel
      rw [List.mem_filter] at hrF
      refine ⟨r, hrF.1, by simpa using hrF.2, ?_, ?_, ?_⟩
      · simp only [link_target, hsc, hsel]
        rfl
      · rintro ⟨t, ht, htn, htf⟩
        have htF : t ∈ db.symbols.filter (fun s => s.name == c.callee_name) := by
          rw [List.mem_filter]
          exact ⟨ht, by simpa using htn⟩
        have hmin := selectMinBy_not_lt _ _ _ hsel t htF
        exact (keyLt_linkKey_false hmin).1 htf
      · intro hno t ht htn
        have htF : t ∈ db.symbols.filter (fun s => s.name == c.callee_name) := by
          rw [List.mem_filter]
          exact ⟨ht, by simpa using htn⟩
        have hrf : r.file_id ≠ sc.file_id :=
          hno r hrF.1 (by simpa using hrF.2)
        have htf : t.file_id ≠ sc.file_id := hno t ht htn
        have hmin := selectMinBy_not_lt _ _ _ hsel t htF
        rcases (keyLt_linkKey_false hmin).2 with hle | ⟨_, hbad⟩
        · exact hle
        · exact absurd hbad hrf
  · intro d hd hdn
    have hdi : d.callee_id.isSome = true := Option.isSome_iff_ne_none.mpr hdn
    have := List.mem_map_of_mem
      (f := fun k => if k.callee_id.isSome then k
        else { k with callee_id := link_target db k }) hd
    simp only [hdi, if_true] at this
    simpa [link_calls] using this
  · intro hc
    have hci : c.callee_id.isSome = false := by rw [hnull]; rfl
    have := List.mem_map_of_mem
      (f := fun k => if k.callee_id.isSome then k
        else { k with callee_id := link_target db k }) hc
    simp only [hci, Bool.false_eq_true, if_false] at this
    simpa [link_calls] using this

/-- Witness for C2 on the pre-link state of scenario S1: the single call
has caller id 1 (symbol foo) and callee name bar, matched only by the
symbol bar of src/b.py, whose canonical id the linker assigns. -/
theorem C2_linking_pass_witness :
    s1_pre.symbols.find? (fun s => s.symbol_id == s1Call.caller_id) = some fooRow ∧
    s1Call.callee_id = none ∧
    ∃ r ∈ s1_pre.symbols, r.name = s1Call.callee_name ∧
      link_target s1_pre s1Call = some r.canonical_id ∧
      ((∃ t ∈ s1_pre.symbols, t.name = s1Call.callee_name ∧ t.file_id = fooRow.file_id) →
        r.file_id = fooRow.file_id) ∧
      ((∀ t ∈ s1_pre.symbols, t.name = s1Call.callee_name → t.file_id ≠ fooRow.file_id) →
        ∀ t ∈ s1_pre.symbols, t.name = s1Call.callee_name → r.symbol_id ≤ t.symbol_id) :=
  ⟨by decide, rfl,
   (C2_linking_pass s1_pre s1Call fooRow (by decide) rfl).2.1 barRow (by decide) rfl⟩

/-- C3 counterexample: after deleting src/b.py and re-running index on
scenario S1 (src/a.py unchanged, hence skipped), the surviving call edge of
foo still carries a NON-null callee_id — the stale canonical id of the
deleted bar — because the linking UPDATE only touches rows with NULL
callee_id and orphan cleanup never clears references; moreover a query for
bar still resolves a best match (foo via the Levenshtein layer) instead of
reporting not found. Both parts of the claim fail at this input. -/
theorem C3_counterexample :
    (∃ c ∈ s6_run2.calls, c.callee_id ≠ none) ∧
    ∃ out, progressive_search_multi (dbNodes s6_run2) "bar" = some out ∧
      out.best.isSome = true := by
  refine ⟨by decide,
    ⟨{ best := some (fooNode, "levenshtein"),
       candidates := [{ node := fooNode, match_type := "levenshtein_d3",
                        score := mkRat 1 4 }] }, by decide, by decide⟩⟩

/-- C3 amended: deleting src/b.py and re-indexing removes the file row and
symbol of bar, but the surviving call edge of foo RETAINS the stale
callee_id func:src/b.py::bar (relinking skips non-null rows, cleanup does
not clear references), and a subsequent query for bar does not report not
found: it falls through to the Levenshtein layer and returns foo at
distance 3 with score 0.25. -/
theorem C3_amended_stale_link :
    s6_run2.files.map (fun f => f.file_path) = ["src/a.py"] ∧
    s6_run2.calls.map (fun c => c.callee_id) = [some "func:src/b.py::bar"] ∧
    (∀ s ∈ s6_run2.symbols, s.canonical_id ≠ "func:src/b.py::bar") ∧
    progressive_search_multi (dbNodes s6_run2) "bar" =
      some { best := some (fooNode, "levenshtein"),
             candidates := [{ node := fooNode, match_type := "levenshtein_d3",
                              score := mkRat 1 4 }] } ∧
    mkRat 1 4 = 1 - (3 : ℚ)/4 ∧
    lev "bar".data "foo".data = 3 := by
  refine ⟨by decide, by decide, by decide, by decide, by norm_num [Rat.mkRat_eq_div], by decide⟩

/-- C4: the loop of run_analyze is claimed (by the spec and by the source
comment) to be a breadth-first walk whose indirect set is exactly the nodes
at distance 2 or 3, but the queue is a Rust Vec popped from the BACK, a
depth-bounded depth-first walk. On the graph with edges T-m, T-n1, n1-n2,
n2-B, m-B, B-X it first reaches B along the length-3 path through n1 and
n2, so B is not expanded and the distance-3 node X is missing from the
indirect set, although X lies within breadth-first distance 3. The circular
part of the claim (direct B, empty indirect, backward from A on A-B-A) does
hold. -/
theorem C4_reachability_not_bfs :
    run_analyze_reach (selectGraph "forward" (adjacency c4db) (reverse_adjacency c4db))
        "T" 100 = some (["m", "n1"], ["n2", "B"]) ∧
    "X" ∈ reachWithin (adjacency c4db) "T" 3 ∧
    "X" ∉ reachWithin (adjacency c4db) "T" 2 ∧
    "X" ∉ ["n2", "B"] ∧
    run_analyze_reach (selectGraph "backward" (adjacency circDb) (reverse_adjacency circDb))
        "A" 100 = some (["B"], []) := by
  refine ⟨by decide, by decide, by decide, by decide, by decide⟩

/-- C5 counterexample: with the single symbol Foo and the query foo, no name
literally starts or ends with the query (and none contains it), so the claim
as stated reaches the Levenshtein layer (lowercased distance 0, score 1);
the implementation layers 2, 3 and 5 are SQLite LIKE patterns, which compare
ASCII case-insensitively, so the search stops at layer 2 with match type
prefix_suffix and score 0.9. -/
theorem C5_counterexample :
    progressive_search_multi [capFoo] "foo" =
      some { best := some (capFoo, "prefix_suffix"),
             candidates := [{ node := capFoo, match_type := "prefix_suffix",
                              score := mkRat 9 10 }] } ∧
    ("foo".data.isPrefixOf "Foo".data = false ∧
     "foo".data.isSuffixOf "Foo".data = false ∧
     listInfixB "foo".data "Foo".data = false) ∧
    lev (lowerChars "foo".data) (lowerChars "Foo".data) = 0 := by
  refine ⟨by decide, ⟨by decide, by decide, by decide⟩, by decide⟩

/-- C5 amended: the progressive lookup evaluates the five layers strictly in
order and stops at the first layer with a hit, returning its first row as
top match plus at most 5 candidates annotated with the layer match type and
score — with the amendment that layers 2, 3 and 5 match ASCII
case-insensitively (SQLite LIKE semantics) instead of literally. Layer 1 is
case-sensitive SQL equality and contributes no candidate entries; layer 4
keeps lowercased distances at most 3 in ascending order with score 1 - d/4;
layer 5 runs only when the query byte length is at least 4 and scores 0.5. -/
theorem C5_progressive_layers (syms : List Node) (q : String) :
    (∀ n, exact_match syms q = some n →
      n ∈ syms ∧ n.name = q ∧
      progressive_search_multi syms q =
        some { best := some (n, "exact"), candidates := [] }) ∧
    (exact_match syms q = none →
      ∀ c cs, prefix_suffix_match_multi syms q 5 = c :: cs →
        progressive_search_multi syms q =
          some { best := some (c, "prefix_suffix"),
                 candidates := (c :: cs).map
                   (fun n => ⟨n, "prefix_suffix", mkRat 9 10⟩) } ∧
        (c :: cs).length ≤ 5 ∧
        ∀ n ∈ c :: cs, n ∈ syms ∧ (likeStarts q n.name || likeEnds q n.name) = true) ∧
    (exact_match syms q = none → prefix_suffix_match_multi syms q 5 = [] →
      ∀ c cs, substring_match_multi syms q 5 = c :: cs →
        progressive_search_multi syms q =
          some { best := some (c, "substring"),
                 candidates := (c :: cs).map
                   (fun n => ⟨n, "substring", mkRat 4 5⟩) } ∧
        (c :: cs).length ≤ 5 ∧
        ∀ n ∈ c :: cs, n ∈ syms ∧ likeContains q n.name = true) ∧
    (exact_match syms q = none → prefix_suffix_match_multi syms q 5 = [] →
      substring_match_multi syms q 5 = [] →
      ∀ m ms, levenshtein_match_multi syms q 3 5 = m :: ms →
        progressive_search_multi syms q =
          some { best := some (m.1, "levenshtein"),
                 candidates := (m :: ms).map
                   (fun p => ⟨p.1, "levenshtein_d" ++ toString p.2,
                              mkRat (4 - (p.2 : Int)) 4⟩) } ∧
        (m :: ms).length ≤ 5 ∧
        (∀ p ∈ m :: ms, p.1 ∈ syms ∧
          p.2 = lev (lowerChars q.data) (lowerChars p.1.name.data) ∧ p.2 ≤ 3 ∧
          mkRat (4 - (p.2 : Int)) 4 = 1 - (p.2 : ℚ)/4) ∧
        List.Pairwise (fun a b => a.2 ≤ b.2) (m :: ms)) ∧
    (exact_match syms q = none → prefix_suffix_match_multi syms q 5 = [] →
      substring_match_multi syms q 5 = [] → levenshtein_match_multi syms q 3 5 = [] →
      (utf8Len q.data < 4 →
        progressive_search_multi syms q = some { best := none, candidates := [] }) ∧
      (∀ stem, takeBytes q.data 4 = some stem →
        ∀ c cs, stem_match_multi syms q 5 = some (c :: cs) →
          progressive_search_multi syms q =
            some { best := some (c, "stem"),
                   candidates := (c :: cs).map (fun n => ⟨n, "stem", mkRat 1 2⟩) } ∧
          (c :: cs).length ≤ 5 ∧
          ∀ n ∈ c :: cs, n ∈ syms ∧ likeStarts (String.mk stem) n.name = true) ∧
      (stem_match_multi syms q 5 = some [] →
        progressive_search_multi syms q = some { best := none, candidates := [] })) := by
  refine ⟨?_, ?_, ?_, ?_, ?_⟩
  · intro n hn
    have hmem : n ∈ syms.filter (fun s => s.name == q) := by
      have hcons := List.eq_cons_of_mem_head? (Option.mem_def.mpr hn)
      rw [hcons]
      exact List.mem_cons_self _ _
    rw [List.mem_filter] at hmem
    refine ⟨hmem.1, by simpa using hmem.2, ?_⟩
    simp only [progressive_search_multi, exact_match] at *
    rw [hn]
  · intro hex c cs hps
    refine ⟨?_, ?_, ?_⟩
    · simp only [progressive_search_multi]
      rw [hex, hps]
    · rw [← hps]
      exact List.length_take_le 5 _
    · intro n hn
      rw [← hps] at hn
      have hn2 := List.mem_of_mem_take hn
      rw [List.mem_filter] at hn2
      exact hn2
  · intro hex hps c cs hsub
    refine ⟨?_, ?_, ?_⟩
    · simp only [progressive_search_multi]
      rw [hex, hps, hsub]
    · rw [← hsub]
      exact List.length_take_le 5 _
    · intro n hn
      rw [← hsub] at hn
      have hn2 := List.mem_of_mem_take hn
      rw [List.mem_filter] at hn2
      exact hn2
  · intro hex hps hsub m ms hlev
    refine ⟨?_, ?_, ?_, ?_⟩
    · simp only [progressive_search_multi]
      rw [hex, hps, hsub, hlev]
    · rw [← hlev]
      exact List.length_take_le 5 _
    · intro p hp
      rw [← hlev] at hp
      have hp2 := List.mem_of_mem_take hp
      rw [mem_sortByDist, List.mem_filter] at hp2
      rcases hp2 with ⟨hpm, hple⟩
      rcases List.mem_map.mp hpm with ⟨s, hs, hpeq⟩
      subst hpeq
      exact ⟨hs, rfl, by simpa using hple, mkRat_score_eq _⟩
    · rw [← hlev]
      exact (pairwise_sortByDist _).sublist (List.take_sublist 5 _) |>.imp (fun h => h)
  · intro hex hps hsub hlev
    refine ⟨?_, ?_, ?_⟩
    · intro hlt
      have hstem : stem_match_multi syms q 5 = some [] := by
        simp only [stem_match_multi, if_pos hlt]
      simp only [progressive_search_multi]
      rw [hex, hps, hsub, hlev, hstem]
    · intro stem hstem c cs hsm
      have hge : ¬ utf8Len q.data < 4 := by
        intro hlt
        simp only [stem_match_multi, if_pos hlt] at hsm
        simp at hsm
      refine ⟨?_, ?_, ?_⟩
      · simp only [progressive_search_multi]
        rw [hex, hps, hsub, hlev, hsm]
      · have : c :: cs = (syms.filter
            (fun s => likeStarts (String.mk stem) s.name)).take 5 := by
          simp only [stem_match_multi, if_neg hge, hstem] at hsm
          simpa using hsm.symm
        rw [this]
        exact List.length_take_le 5 _
      · intro n hn
        have : c :: cs = (syms.filter
            (fun s => likeStarts (String.mk stem) s.name)).take 5 := by
          simp only [stem_match_multi, if_neg hge, hstem] at hsm
          simpa using hsm.symm
        rw [this] at hn
        have hn2 := List.mem_of_mem_take hn
        rw [List.mem_filter] at hn2
        exact hn2
    · intro hstem
      simp only [progressive_search_multi]
      rw [hex, hps, hsub, hlev, hstem]

/-- Witness for C5 at the scenario S3 input (query baz against the single
symbol bar): the first three layers miss and the Levenshtein layer returns
bar at distance 1 with score 0.75. -/
theorem C5_progressive_layers_witness :
    exact_match [s3bar] "baz" = none ∧
    prefix_suffix_match_multi [s3bar] "baz" 5 = [] ∧
    substring_match_multi [s3bar] "baz" 5 = [] ∧
    levenshtein_match_multi [s3bar] "baz" 3 5 = [(s3bar, 1)] ∧
    progressive_search_multi [s3bar] "baz" =
      some { best := some (s3bar, "levenshtein"),
             candidates := [{ node := s3bar, match_type := "levenshtein_d1",
                              score := mkRat 3 4 }] } := by
  refine ⟨by decide, by decide, by decide, by decide, ?_⟩
  have h := ((C5_progressive_layers [s3bar] "baz").2.2.2.1 (by decide) (by decide)
      (by decide) (s3bar, 1) [] (by decide)).1
  simpa using h

/-- C6 counterexample: on an empty database a query for a missing symbol
writes a JSON whose status field is success (with found_symbol empty), not
error as the claim states; the claim holds only for the analyze mode. -/
theorem C6_counterexample :
    run_query_output emptyDb "nosuch" =
      some { status := "success", found_symbol := none, match_type := none,
             candidates := [], related_nodes := [] } ∧
    (run_query_output emptyDb "nosuch").map (fun r => r.status) ≠ some "error" := by
  refine ⟨by decide, by decide⟩

/-- C6 amended: when the target symbol cannot be found, both modes return
without a fatal error and write an output JSON, but only analyze writes
status error (with the diagnostic message Symbol not found); query writes
status success with found_symbol and match_type empty. -/
theorem C6_not_found_outputs (db : Db) (q : String)
    (hq : progressive_search_multi (dbNodes db) q =
      some { best := none, candidates := [] })
    (ha : analyze_find_target db q = none) :
    run_query_output db q =
      some { status := "success", found_symbol := none, match_type := none,
             candidates := [], related_nodes := [] } ∧
    run_analyze_status db q = ("error", some "Symbol not found") := by
  constructor
  · simp [run_query_output, hq]
  · simp [run_analyze_status, ha]

/-- Witness for C6 on the empty database with the query nosuch. -/
theorem C6_not_found_outputs_witness :
    progressive_search_multi (dbNodes emptyDb) "nosuch" =
      some { best := none, candidates := [] } ∧
    analyze_find_target emptyDb "nosuch" = none ∧
    run_analyze_status emptyDb "nosuch" = ("error", some "Symbol not found") :=
  ⟨by decide, by decide,
   (C6_not_found_outputs emptyDb "nosuch" (by decide) (by decide)).2⟩

/-- C7: the complexity score is 0.5 coverage + 2 out-degree + 1 in-degree
clamped to at most 100, where coverage counts the distinct canonical ids
visited by the 1000 damped walks (which visit at most 10 nodes each); the
level bins at 20 / 50 / 80 into Simple / Medium / High / Extreme and the
risk level bins direct plus indirect at 3 / 10 into low / medium / high.
The walk randomness is abstracted as an oracle, so the statements hold for
every randomness outcome. -/
theorem C7_complexity_and_risk (adj revAdj : String → List String)
    (o : WalkOracle) (target : String) (dc ic : Nat) :
    (analyze_score adj revAdj o target dc ic).complexity_score =
      min ((((allWalkVisits adj o target 1000 10).dedup.length : ℚ)) * (1/2) +
        ((adj target).length : ℚ) * 2 + ((revAdj target).length : ℚ) * 1) 100 ∧
    (allWalkVisits adj o target 1000 10).length ≤ 1000 * 10 ∧
    ((analyze_score adj revAdj o target dc ic).complexity_level = "Simple" ↔
      (analyze_score adj revAdj o target dc ic).complexity_score < 20) ∧
    ((analyze_score adj revAdj o target dc ic).complexity_level = "Medium" ↔
      20 ≤ (analyze_score adj revAdj o target dc ic).complexity_score ∧
      (analyze_score adj revAdj o target dc ic).complexity_score < 50) ∧
    ((analyze_score adj revAdj o target dc ic).complexity_level = "High" ↔
      50 ≤ (analyze_score adj revAdj o target dc ic).complexity_score ∧
      (analyze_score adj revAdj o target dc ic).complexity_score < 80) ∧
    ((analyze_score adj revAdj o target dc ic).complexity_level = "Extreme" ↔
      80 ≤ (analyze_score adj revAdj o target dc ic).complexity_score) ∧
    (dc + ic ≤ 3 → (analyze_score adj revAdj o target dc ic).risk_level = "low") ∧
    (3 < dc + ic → dc + ic ≤ 10 →
      (analyze_score adj revAdj o target dc ic).risk_level = "medium") ∧
    (10 < dc + ic → (analyze_score adj revAdj o target dc ic).risk_level = "high") := by
  have hwalk : (allWalkVisits adj o target 1000 10).length ≤ 1000 * 10 := by
    have h := flatMap_length_le (fun w => walkFrom adj o w 10 0 target) 10
      (fun w => walkFrom_length_le adj o w 10 0 target) (List.range 1000)
    simpa [allWalkVisits] using h
  unfold analyze_score
  dsimp only
  exact ⟨clamp_eq_min _, hwalk, (level_bins _).1, (level_bins _).2.1,
    (level_bins _).2.2.1, (level_bins _).2.2.2, (risk_bins _).1,
    (risk_bins _).2.1, (risk_bins _).2.2⟩

/-- Witness for C7: a target with one direct and no indirect caller is
classified low risk. -/
theorem C7_complexity_and_risk_witness :
    (1 : Nat) + 0 ≤ 3 ∧
    (analyze_score (fun _ => []) (fun _ => [])
        { damp := fun _ _ => false, choose := fun _ _ => 0 } "t" 1 0).risk_level =
      "low" :=
  ⟨by decide,
   (C7_complexity_and_risk (fun _ => []) (fun _ => [])
      { damp := fun _ _ => false, choose := fun _ _ => 0 } "t" 1 0).2.2.2.2.2.2.1
     (by decide)⟩

/-- C8: a file is skipped without reading exactly when the stored record has
index level symbol with matching size and mtime; when that fast path misses
and the bootstrap diversion does not apply, the content is read and the file
is skipped exactly when the stored hash equals the content hash (a file
without a stored record is always parsed); consequently a content change
that preserves size and mtime of a symbol-level record is skipped unread —
the change is not detected. -/
theorem C8_change_detection (old : Option DbFileMeta) (size : Nat) (mtime : Int)
    (h : String) (divert : Bool) :
    (process_file old size mtime h divert = (FileOutcome.skipMarker, false) ↔
      ∃ o, old = some o ∧ o.level = "symbol" ∧ o.size = size ∧ o.mtime = mtime) ∧
    (divert = false →
      (∀ o, old = some o → ¬(o.level = "symbol" ∧ o.size = size ∧ o.mtime = mtime) →
        (process_file old size mtime h divert).2 = true ∧
        ((process_file old size mtime h divert).1 = FileOutcome.skipMarker ↔
          o.hash = h)) ∧
      (old = none → process_file old size mtime h divert = (FileOutcome.parsed, true))) ∧
    (∀ o, old = some o → o.level = "symbol" → o.size = size → o.mtime = mtime →
      o.hash ≠ h →
      process_file old size mtime h divert = (FileOutcome.skipMarker, false)) := by
  refine ⟨?_, ?_, ?_⟩
  · cases old with
    | none =>
      simp only [process_file]
      constructor
      · intro hx
        split at hx <;> simp at hx
      · rintro ⟨o, ho, -⟩
        simp at ho
    | some o =>
      simp only [process_file]
      constructor
      · intro hx
        split at hx
        · rename_i hcond
          simp only [Bool.and_eq_true, beq_iff_eq] at hcond
          exact ⟨o, rfl, hcond.1.1, hcond.1.2, hcond.2⟩
        · split at hx
          · simp at hx
          · split at hx <;> simp at hx
      · rintro ⟨o2, ho2, hl, hs, hm⟩
        have : o2 = o := by simpa using ho2.symm
        subst this
        rw [if_pos (by simp [hl, hs, hm])]
  · intro hdiv
    constructor
    · intro o ho hnot
      subst ho
      simp only [process_file]
      have hcond : ¬(o.level == "symbol" && o.size == size && o.mtime == mtime) = true := by
        simp only [Bool.and_eq_true, beq_iff_eq]
        tauto
      rw [if_neg hcond, hdiv]
      rw [if_neg (by simp)]
      constructor
      · split <;> rfl
      · split
        · rename_i hh
          simp only [beq_iff_eq] at hh
          simp [hh]
        · rename_i hh
          simp only [beq_iff_eq] at hh
          simp [hh]
    · intro ho
      subst ho
      simp [process_file, hdiv]
  · intro o ho hl hs hm _
    subst ho
    simp only [process_file]
    rw [if_pos (by simp [hl, hs, hm])]

/-- Witness for C8: a stored symbol-level record with unchanged size and
mtime but a different content hash is skipped without a read. -/
theorem C8_change_detection_witness :
    process_file (some { hash := "abc", size := 5, mtime := 9, level := "symbol" })
        5 9 "zzz" false = (FileOutcome.skipMarker, false) :=
  (C8_change_detection (some { hash := "abc", size := 5, mtime := 9, level := "symbol" })
      5 9 "zzz" false).2.2
    { hash := "abc", size := 5, mtime := 9, level := "symbol" }
    rfl rfl rfl rfl (by decide)

/-- C9 counterexample: in an environment that sets HUGE_FILE_THRESHOLD = 7
and BOOTSTRAP_MAX_PARSE = 9 (the names the claim quotes) and leaves the
MPM_AST prefixed variables unset, the source still reads the defaults 50000
and 5000: the claim-side readers disagree with the source. -/
theorem C9_counterexample :
    huge_threshold c9Env = 50000 ∧ huge_threshold_claim c9Env = 7 ∧
    bootstrap_parse_budget c9Env = 5000 ∧ bootstrap_parse_budget_claim c9Env = 9 ∧
    huge_threshold c9Env ≠ huge_threshold_claim c9Env ∧
    bootstrap_parse_budget c9Env ≠ bootstrap_parse_budget_claim c9Env := by
  refine ⟨by decide, by decide, by decide, by decide, by decide, by decide⟩

/-- C9 amended: the tunables are read from MPM_AST_HUGE_FILE_THRESHOLD and
MPM_AST_BOOTSTRAP_MAX_PARSE with defaults 50000 and 5000 (also used when the
value does not parse as an unsigned integer), and each depends on no other
part of the environment. -/
theorem C9_env_tunables (e : EnvMap) :
    (e "MPM_AST_HUGE_FILE_THRESHOLD" = none → huge_threshold e = 50000) ∧
    (∀ s n, e "MPM_AST_HUGE_FILE_THRESHOLD" = some s → parseUsize s = some n →
      huge_threshold e = n) ∧
    (∀ s, e "MPM_AST_HUGE_FILE_THRESHOLD" = some s → parseUsize s = none →
      huge_threshold e = 50000) ∧
    (∀ e2 : EnvMap, e "MPM_AST_HUGE_FILE_THRESHOLD" = e2 "MPM_AST_HUGE_FILE_THRESHOLD" →
      huge_threshold e = huge_threshold e2) ∧
    (e "MPM_AST_BOOTSTRAP_MAX_PARSE" = none → bootstrap_parse_budget e = 5000) ∧
    (∀ s n, e "MPM_AST_BOOTSTRAP_MAX_PARSE" = some s → parseUsize s = some n →
      bootstrap_parse_budget e = n) ∧
    (∀ s, e "MPM_AST_BOOTSTRAP_MAX_PARSE" = some s → parseUsize s = none →
      bootstrap_parse_budget e = 5000) ∧
    (∀ e2 : EnvMap, e "MPM_AST_BOOTSTRAP_MAX_PARSE" = e2 "MPM_AST_BOOTSTRAP_MAX_PARSE" →
      bootstrap_parse_budget e = bootstrap_parse_budget e2) := by
  refine ⟨?_, ?_, ?_, ?_, ?_, ?_, ?_, ?_⟩
  · intro hn; simp [huge_threshold, hn]
  · intro s n hs hp; simp [huge_threshold, hs, hp]
  · intro s hs hp; simp [huge_threshold, hs, hp]
  · intro e2 hagree; simp [huge_threshold, hagree]
  · intro hn; simp [bootstrap_parse_budget, hn]
  · intro s n hs hp; simp [bootstrap_parse_budget, hs, hp]
  · intro s hs hp; simp [bootstrap_parse_budget, hs, hp]
  · intro e2 hagree; simp [bootstrap_parse_budget, hagree]

/-- Witness for C9 with MPM_AST_HUGE_FILE_THRESHOLD set to 123. -/
theorem C9_env_tunables_witness :
    c9Env2 "MPM_AST_HUGE_FILE_THRESHOLD" = some "123" ∧
    parseUsize "123" = some 123 ∧
    huge_threshold c9Env2 = 123 :=
  ⟨rfl, by decide, (C9_env_tunables c9Env2).2.1 "123" 123 rfl (by decide)⟩

/-- C10: the stem layer is not total over UTF-8 queries: the length gate
compares the BYTE length of the query with 4 while the slice takes the
first four BYTES, which must fall on a character boundary. The query ab
followed by the euro sign has byte length 5, passes the gate, and byte 4
falls inside the three-byte euro character, so the Rust slice panics (the
model returns none) and the whole lookup aborts. The intent of the claim —
the lookup should be total — is clearly right, so this is a code defect. -/
theorem C10_stem_layer_panics :
    utf8Len "ab€".data = 5 ∧
    takeBytes "ab€".data 4 = none ∧
    stem_match_multi [] "ab€" 5 = none ∧
    progressive_search_multi [] "ab€" = none := by
  refine ⟨by decide, by decide, by decide, by decide⟩

end AstIndexer
